import Mathlib

/-!
Shallow embedding of `rossi_strand.py`, a small ETL pipeline that joins
per-replicate motif interval tables against a per-TF reference peak table.

Modelling conventions:
* pandas dataframes become Lean lists of typed rows; column values that the
  pipeline only moves around (names, strands) are strings, numeric cell
  values (coordinates, scores) are integers — only their order and equality
  structure is used by the code.
* network and filesystem effects become explicit parameters: an HTTP client
  is a function from a URL to `Except Err`, the filesystem is a record of
  existing file and directory paths, and fallible steps return `Except Err`.
* `drop_duplicates` of pandas (default `keep = first`, optionally on a
  subset of columns) becomes `dedupByKey`, which keeps the first occurrence
  of each key in list order.
* Python string methods `lower`, `strip` and `capitalize` are modelled
  character-wise over the ASCII range, which is exact for the inputs the
  script handles (TF names, sheet values).
-/

namespace RossiStrand

/-- ASCII model of Python `str.lower` on one character: map A-Z to a-z,
leave everything else unchanged. -/
def lowerChar (c : Char) : Char :=
  if 65 ≤ c.toNat ∧ c.toNat ≤ 90 then Char.ofNat (c.toNat + 32) else c

/-- ASCII model of Python `str.upper` on one character: map a-z to A-Z,
leave everything else unchanged. -/
def upperChar (c : Char) : Char :=
  if 97 ≤ c.toNat ∧ c.toNat ≤ 122 then Char.ofNat (c.toNat - 32) else c

/-- Python `str.lower`, character-wise. -/
def pyLower (s : String) : String :=
  String.mk (s.data.map lowerChar)

/-- Python `str.strip`: drop leading and trailing whitespace. -/
def pyStrip (s : String) : String :=
  String.mk (((s.data.dropWhile Char.isWhitespace).reverse.dropWhile
    Char.isWhitespace).reverse)

/-- Python `str.capitalize`: first character uppercased, all remaining
characters lowercased. -/
def pyCapitalize (s : String) : String :=
  match s.data with
  | [] => ""
  | c :: cs => String.mk (upperChar c :: cs.map lowerChar)

/-- Worker for `dedupByKey`: `seen` is the set of keys already emitted. -/
def dedupByKeyAux {α κ : Type} [DecidableEq κ] (f : α → κ) (seen : List κ) :
    List α → List α
  | [] => []
  | x :: xs =>
    if f x ∈ seen then dedupByKeyAux f seen xs
    else x :: dedupByKeyAux f (f x :: seen) xs

/-- Pandas `drop_duplicates` with default `keep = first`, comparing rows by
the key `f` (for a subset of columns take `f` projecting to that subset, for
whole-row comparison take `f = id`): keeps the first occurrence of each key,
in input order. -/
def dedupByKey {α κ : Type} [DecidableEq κ] (f : α → κ) (l : List α) : List α :=
  dedupByKeyAux f [] l

/-- A row of the metadata sheet `GEO_GPL19756_GSE147927`, restricted to the
three columns the script reads: `Yeast Target Common Name`, `Replicate`,
`Sample ID`. -/
structure MetaRow where
  tfName : String
  replicate : String
  sampleId : String
  deriving DecidableEq, Repr

/-- `get_replicates_for_tf`: filter the metadata to rows whose TF-name
column, stripped and lowercased, equals the lowercased (not stripped)
requested name, project to the `(Replicate, Sample ID)` pair, and drop
duplicate pairs keeping the first occurrence. -/
def get_replicates_for_tf (tf_name : String) (metadata : List MetaRow) :
    List (String × String) :=
  dedupByKey id
    ((metadata.filter fun r => pyLower (pyStrip r.tfName) == pyLower tf_name).map
      fun r => (r.replicate, r.sampleId))

/-- Error taxonomy of the specification: download failures and parse-shape
failures. -/
inductive Err where
  | network
  | format
  deriving DecidableEq, Repr

/-- The filesystem as the script observes it: which file paths and which
directory paths exist. -/
structure FS where
  files : List String
  dirs : List String
  deriving DecidableEq, Repr

/-- Observable side effects of the artifact fetchers. -/
inductive FetchEv where
  | download (url : String)
  | extract (zipFile : String) (dest : String)
  deriving DecidableEq, Repr

def countDownloads (evs : List FetchEv) : Nat :=
  (evs.filter fun e => match e with | .download _ => true | _ => false).length

def countExtracts (evs : List FetchEv) : Nat :=
  (evs.filter fun e => match e with | .extract _ _ => true | _ => false).length

def base_url : String :=
  "https://www.datacommons.psu.edu/download/eberly/pughlab/yeast-epigenome-project/"

/-- `os.path.join` for the paths the script builds. -/
def pathJoin (a b : String) : String := a ++ "/" ++ b

/-- `download_and_extract_zip`: download the zip for `sample_id` unless the
archive file already exists, then extract it unless the extraction directory
already exists, and return the extraction directory path. `net` is the HTTP
client (`requests.get` plus `raise_for_status`); a successful download adds
the archive path to the filesystem, a successful extraction adds the
directory path. The returned event list records which of the two effects
actually ran. -/
def download_and_extract_zip (net : String → Except Err Unit)
    (sample_id dest_folder : String) (fs : FS) :
    Except Err (FS × List FetchEv × String) :=
  let zip_filename := pathJoin dest_folder (sample_id ++ "_YEP.zip")
  let step1 : Except Err (FS × List FetchEv) :=
    if fs.files.contains zip_filename then .ok (fs, [])
    else
      match net (base_url ++ sample_id ++ "_YEP.zip") with
      | .error e => .error e
      | .ok _ =>
        .ok ({ fs with files := zip_filename :: fs.files },
          [FetchEv.download (base_url ++ sample_id ++ "_YEP.zip")])
  match step1 with
  | .error e => .error e
  | .ok (fs1, ev1) =>
    let extract_path := pathJoin dest_folder sample_id
    if fs1.dirs.contains extract_path then .ok (fs1, ev1, extract_path)
    else
      .ok ({ fs1 with dirs := extract_path :: fs1.dirs },
        ev1 ++ [FetchEv.extract zip_filename extract_path], extract_path)

/-- A row of a motif bed file, columns as assigned by the script. -/
structure MotifRow where
  chrom : String
  start : Int
  «end» : Int
  col3 : String
  col4 : String
  strand : String
  deriving DecidableEq, Repr

/-- Worker for `load_all_motif_bed_files`: scan indices upward from
`motif_num` while the expected file is present, consuming fuel. -/
def loadMotifsAux (present : List Nat) (tbl : Nat → List MotifRow) :
    Nat → Nat → List (Nat × List MotifRow)
  | 0, _ => []
  | fuel + 1, motif_num =>
    if present.contains motif_num then
      (motif_num, tbl motif_num) :: loadMotifsAux present tbl fuel (motif_num + 1)
    else []

/-- `load_all_motif_bed_files`: starting at motif index 1, read the file
`{sample_id}_Motif_{i}_FourColor.bed` while it exists and stop at the first
missing index. The filesystem is abstracted to `present`, the finite set of
indices whose expected file exists in the extracted folder, and `tbl`, the
parsed table of each such file. The fuel `present.length + 1` always reaches
the first missing index, because the indices visited before it are distinct
members of `present`. -/
def load_all_motif_bed_files (present : List Nat) (tbl : Nat → List MotifRow) :
    List (Nat × List MotifRow) :=
  loadMotifsAux present tbl (present.length + 1) 1

/-- A row of the ChExMix reference peak bed file, columns as assigned by the
script before the rename of `start` and `end` to `start_abf1` and
`end_abf1`. -/
structure ChexRow where
  chrom : String
  start : Int
  «end» : Int
  name : String
  score : Int
  strand : String
  deriving DecidableEq, Repr

/-- Result of `pd.read_csv` on the downloaded reference bed file: the
inferred column count together with the row data (meaningful when the
column count is the expected 6). -/
structure ParsedBed where
  ncols : Nat
  rows : List ChexRow
  deriving DecidableEq, Repr

/-- The remote filename of the per-TF ChExMix bed file:
`{tf_name.capitalize()}_CX.bed`. -/
def download_tf_filename (tf_name : String) : String :=
  pyCapitalize tf_name ++ "_CX.bed"

/-- The GitHub URL the ChExMix bed file is fetched from. -/
def chexmix_url (tf_name : String) : String :=
  "https://github.com/CEGRcode/2021-Rossi_Nature/raw/master/04_ChExMix_Peaks/" ++
    download_tf_filename tf_name

/-- The local cache path of the ChExMix bed file. -/
def chexmix_cache_path (tf_name dest_dir : String) : String :=
  pathJoin dest_dir (download_tf_filename tf_name)

/-- `download_tf_chexmix_bed`: download the ChExMix bed file for the TF
unless the cache file already exists, and return the local path. -/
def download_tf_chexmix_bed (net : String → Except Err Unit)
    (tf_name dest_dir : String) (fs : FS) :
    Except Err (FS × List FetchEv × String) :=
  let out_path := chexmix_cache_path tf_name dest_dir
  if fs.files.contains out_path then .ok (fs, [], out_path)
  else
    match net (chexmix_url tf_name) with
    | .error e => .error e
    | .ok _ =>
      .ok ({ fs with files := out_path :: fs.files },
        [FetchEv.download (chexmix_url tf_name)], out_path)

/-- `load_tf_chexmix_bed`, parsing part: `fetched` is the downloaded and
CSV-parsed reference file. Assigning the six column names
`chrom, start, end, name, score, strand` raises unless the parsed table has
exactly 6 columns; the specification calls that failure `FormatError`. -/
def load_tf_chexmix_bed (fetched : Except Err ParsedBed) :
    Except Err (List ChexRow) :=
  match fetched with
  | .error e => .error e
  | .ok t => if t.ncols = 6 then .ok t.rows else .error Err.format

/-- A row of the output of `merge_motif_with_chexmix`: the merged and
projected columns `chrom, start_abf1, end_abf1, score, strand_four` plus the
motif index column. -/
structure JoinedRow where
  chrom : String
  start_abf1 : Int
  end_abf1 : Int
  score : Int
  strand_four : String
  motif : Nat
  deriving DecidableEq, Repr

/-- `pd.merge(chexmix_df, motif_df, on = chrom)`: inner join on equal
`chrom`, left rows outermost in left order, matching right rows in right
order. -/
def mergeOnChrom (chexmix_df : List ChexRow) (motif_df : List MotifRow) :
    List (ChexRow × MotifRow) :=
  chexmix_df.flatMap fun r =>
    (motif_df.filter fun m => m.chrom == r.chrom).map fun m => (r, m)

/-- Column selection of the merged row: keep `chrom, start_abf1, end_abf1,
score, strand_four` and add the motif number. -/
def projectJoined (motif_num : Nat) (rm : ChexRow × MotifRow) : JoinedRow :=
  ⟨rm.1.chrom, rm.1.start, rm.1.«end», rm.1.score, rm.2.strand, motif_num⟩

/-- `merge_motif_with_chexmix`: for each motif table in mapping order, merge
with the reference table on `chrom`, keep rows whose reference start lies
within the motif interval, project, tag with the motif number; concatenate
across motifs and drop exact-duplicate rows (first occurrence kept). -/
def merge_motif_with_chexmix (motif_dfs : List (Nat × List MotifRow))
    (chexmix_df : List ChexRow) : List JoinedRow :=
  dedupByKey id (List.flatten (motif_dfs.map fun p =>
    ((mergeOnChrom chexmix_df p.2).filter fun rm =>
        decide (rm.1.start ≥ rm.2.start) && decide (rm.1.start ≤ rm.2.«end»)).map
      (projectJoined p.1)))

/-- The Interval Join Engine as the specification words it: for each motif
index, pair each reference row `R` with each motif row `M` such that
`R.chrom = M.chrom` and `M.start ≤ R.start ≤ M.end`, project each surviving
pair to the reference coordinates plus the motif strand, tag with the motif
index; concatenate across motif indices, then drop exact duplicates. -/
def joinSpec (reference : List ChexRow) (motifs : List (Nat × List MotifRow)) :
    List JoinedRow :=
  dedupByKey id (List.flatten (motifs.map fun p =>
    reference.flatMap fun r =>
      (p.2.filter fun m =>
          decide (r.chrom = m.chrom) && decide (m.start ≤ r.start) &&
            decide (r.start ≤ m.«end»)).map
        fun m => ⟨r.chrom, r.start, r.«end», r.score, m.strand, p.1⟩))

/-- A fully tagged output row: joined columns plus `sample_id` and
`replicate`. -/
structure AggRow where
  chrom : String
  start_abf1 : Int
  end_abf1 : Int
  score : Int
  strand_four : String
  motif : Nat
  sample_id : String
  replicate : String
  deriving DecidableEq, Repr

/-- Tag a joined row with its sample and replicate. -/
def tagRow (sample_id replicate : String) (j : JoinedRow) : AggRow :=
  ⟨j.chrom, j.start_abf1, j.end_abf1, j.score, j.strand_four, j.motif,
    sample_id, replicate⟩

/-- The dedup key of the final aggregation:
`(chrom, start_abf1, end_abf1, score)`. -/
def aggKey (r : AggRow) : String × Int × Int × Int :=
  (r.chrom, r.start_abf1, r.end_abf1, r.score)

/-- The final aggregation of `main`: concatenate the per-replicate tables in
replicate order and drop rows duplicating an earlier row on
`(chrom, start_abf1, end_abf1, score)`, keeping the first occurrence. -/
def aggregateFinal (tables : List (List AggRow)) : List AggRow :=
  dedupByKey aggKey (List.flatten tables)

/-- One iteration of the replicate loop of `main`. `fetchMotifs` abstracts
steps 1 to 3 for one sample: download and extract the archive, then load and
parse all motif bed files; it returns `Err.network` on a failed download and
`Err.format` on a motif file of unexpected shape. A replicate with no motif
files is skipped (`none`); otherwise its joined table is tagged with the
sample and replicate labels. The loop body of the source has no exception
handler, so an error here propagates. -/
def processReplicate (fetchMotifs : String → Except Err (List (Nat × List MotifRow)))
    (chexmix_df : List ChexRow) (rep : String × String) :
    Except Err (Option (List AggRow)) :=
  match fetchMotifs rep.2 with
  | .error e => .error e
  | .ok motif_dfs =>
    if motif_dfs.isEmpty then .ok none
    else .ok (some ((merge_motif_with_chexmix motif_dfs chexmix_df).map
      (tagRow rep.2 rep.1)))

/-- The replicate loop of `main`, collecting per-replicate tables in order.
An error in any iteration aborts the whole loop with that error. -/
def mainLoop (fetchMotifs : String → Except Err (List (Nat × List MotifRow)))
    (chexmix_df : List ChexRow) :
    List (String × String) → Except Err (List (List AggRow))
  | [] => .ok []
  | rep :: rest =>
    match processReplicate fetchMotifs chexmix_df rep with
    | .error e => .error e
    | .ok none => mainLoop fetchMotifs chexmix_df rest
    | .ok (some t) =>
      match mainLoop fetchMotifs chexmix_df rest with
      | .error e => .error e
      | .ok tail => .ok (t :: tail)

def output_dir : String := "./output"

/-- The output file `main` writes: its path and its data rows. -/
structure OutputFile where
  path : String
  rows : List AggRow
  deriving DecidableEq, Repr

/-- `main` for one TF: look up the replicates, load the reference peaks
(`chexSrc` is the downloaded and CSV-parsed reference file), run the
replicate loop, and either report no results (`none`, nothing written) when
the loop produced no per-replicate tables, or write the aggregated table to
the output file. Any uncaught error is the `Except.error` outcome. -/
def main (tf_name : String) (metadata : List MetaRow)
    (chexSrc : Except Err ParsedBed)
    (fetchMotifs : String → Except Err (List (Nat × List MotifRow))) :
    Except Err (Option OutputFile) :=
  let replicates := get_replicates_for_tf tf_name metadata
  match load_tf_chexmix_bed chexSrc with
  | .error e => .error e
  | .ok chexmix_df =>
    match mainLoop fetchMotifs chexmix_df replicates with
    | .error e => .error e
    | .ok aggregated_results =>
      if aggregated_results.isEmpty then .ok none
      else
        .ok (some ⟨pathJoin output_dir (pyLower tf_name ++ "_rossi_peak_w_strand.bed"),
          aggregateFinal aggregated_results⟩)

/-- Outcome of one TF in the all-TFs driver: the result of `main`, or the
error it raised, caught and recorded at the TF boundary. -/
inductive Outcome where
  | ok (result : Option OutputFile)
  | failed (e : Err)
  deriving DecidableEq, Repr

/-- The `try / except` around `main` in `run_all_tfs`: an error becomes a
logged `failed` outcome instead of propagating. -/
def toOutcome (r : Except Err (Option OutputFile)) : Outcome :=
  match r with
  | .ok o => .ok o
  | .error e => .failed e

/-- The distinct TF names of the metadata in first-occurrence order, as
`unique()` of pandas returns them (null entries are dropped before this
point and are not modelled). -/
def unique_tfs (metadata : List MetaRow) : List String :=
  dedupByKey id (metadata.map (·.tfName))

/-- The TF loop of `run_all_tfs` over an arbitrary per-TF runner. -/
def runAllAux (runOne : String → Except Err (Option OutputFile)) :
    List String → List (String × Outcome)
  | [] => []
  | tf :: rest => (tf, toOutcome (runOne tf)) :: runAllAux runOne rest

/-- `run_all_tfs`: enumerate the distinct TF names of the metadata and run
`main` for each, catching and recording any error at the TF boundary.
`chexSrc` gives the downloaded and parsed reference file of each TF. -/
def run_all_tfs (metadata : List MetaRow)
    (chexSrc : String → Except Err ParsedBed)
    (fetchMotifs : String → Except Err (List (Nat × List MotifRow))) :
    List (String × Outcome) :=
  runAllAux (fun tf => main tf metadata (chexSrc tf) fetchMotifs)
    (unique_tfs metadata)

/-- The comparison of claim C9 read literally: both the column value and the
requested name are whitespace-trimmed and lowercased before comparing. The
source trims only the column side. -/
def claimedReplicates (tf_name : String) (metadata : List MetaRow) :
    List (String × String) :=
  dedupByKey id
    ((metadata.filter fun r =>
        pyLower (pyStrip r.tfName) == pyLower (pyStrip tf_name)).map
      fun r => (r.replicate, r.sampleId))

/-! Concrete fixtures used by counterexamples and witnesses. -/

def chexRow1 : ChexRow := ⟨"chrI", 150, 160, "peak1", 5, "+"⟩

def chexOk : ParsedBed := ⟨6, [chexRow1]⟩

def motifHit : MotifRow := ⟨"chrI", 100, 200, "AAAA", "0", "+"⟩

def motifMiss : MotifRow := ⟨"chrI", 300, 400, "TTTT", "0", "-"⟩

def metaTwo : List MetaRow := [⟨"Abf1", "R1", "S1"⟩, ⟨"Abf1", "R2", "S2"⟩]

def metaS2 : List MetaRow := [⟨"Abf1", "R2", "S2"⟩]

def metaOne : List MetaRow := [⟨"Abf1", "R1", "S1"⟩]

def metaLower : List MetaRow := [⟨"abf1", "R1", "S1"⟩]

/-- A fetcher whose sample S1 fails with a network error and whose other
samples succeed with one matching motif file. -/
def envC3 : String → Except Err (List (Nat × List MotifRow)) :=
  fun sample_id =>
    if sample_id = "S1" then .error Err.network else .ok [(1, [motifHit])]

/-- A fetcher whose samples all have one motif file that matches nothing. -/
def envC4 : String → Except Err (List (Nat × List MotifRow)) :=
  fun _ => .ok [(1, [motifMiss])]

/-- A fetcher whose samples all have no motif files. -/
def envNone : String → Except Err (List (Nat × List MotifRow)) :=
  fun _ => .ok []

def aggRowS2 : AggRow := ⟨"chrI", 150, 160, 5, "+", 1, "S2", "R2"⟩

/-- A row agreeing with `aggRowS2` on the dedup key but differing in sample
and replicate. -/
def aggRowS1 : AggRow := ⟨"chrI", 150, 160, 5, "+", 1, "S1", "R1"⟩

def joinedRow1 : JoinedRow := ⟨"chrI", 150, 160, 5, "+", 1⟩

/-- An HTTP client whose every request succeeds. -/
def netOk : String → Except Err Unit := fun _ => .ok ()

def fsEmpty : FS := ⟨[], []⟩

/-- The filesystem after fetching sample S1 into /data from scratch. -/
def fsS1 : FS := ⟨["/data/S1_YEP.zip"], ["/data/S1"]⟩

/-- The events of fetching sample S1 into /data from scratch. -/
def evS1 : List FetchEv :=
  [FetchEv.download (base_url ++ "S1" ++ "_YEP.zip"),
   FetchEv.extract "/data/S1_YEP.zip" "/data/S1"]

/-! Shared lemmas about `dedupByKey`, the model of pandas
`drop_duplicates(keep = first)`. -/

theorem dedupByKeyAux_sublist {α κ : Type} [DecidableEq κ] (f : α → κ) :
    ∀ (l : List α) (seen : List κ), (dedupByKeyAux f seen l).Sublist l := by
  intro l
  induction l with
  | nil => intro seen; simp [dedupByKeyAux]
  | cons x xs ih =>
    intro seen
    by_cases h : f x ∈ seen
    · simp only [dedupByKeyAux, if_pos h]
      exact (ih seen).cons x
    · simp only [dedupByKeyAux, if_neg h]
      exact (ih (f x :: seen)).cons₂ x

theorem dedupByKeyAux_key_not_seen {α κ : Type} [DecidableEq κ] (f : α → κ) :
    ∀ (l : List α) (seen : List κ) (y : α),
      y ∈ dedupByKeyAux f seen l → f y ∉ seen := by
  intro l
  induction l with
  | nil => intro seen y hy; simp [dedupByKeyAux] at hy
  | cons x xs ih =>
    intro seen y hy
    by_cases h : f x ∈ seen
    · simp only [dedupByKeyAux, if_pos h] at hy
      exact ih seen y hy
    · simp only [dedupByKeyAux, if_neg h] at hy
      rcases List.mem_cons.mp hy with rfl | hy
      · exact h
      · intro hseen
        exact ih (f x :: seen) y hy (List.mem_cons_of_mem _ hseen)

theorem dedupByKeyAux_keys_nodup {α κ : Type} [DecidableEq κ] (f : α → κ) :
    ∀ (l : List α) (seen : List κ), ((dedupByKeyAux f seen l).map f).Nodup := by
  intro l
  induction l with
  | nil => intro seen; simp [dedupByKeyAux]
  | cons x xs ih =>
    intro seen
    by_cases h : f x ∈ seen
    · simp only [dedupByKeyAux, if_pos h]
      exact ih seen
    · simp only [dedupByKeyAux, if_neg h, List.map_cons, List.nodup_cons]
      refine ⟨?_, ih (f x :: seen)⟩
      intro hmem
      rcases List.mem_map.mp hmem with ⟨y, hy, hfy⟩
      exact dedupByKeyAux_key_not_seen f xs (f x :: seen) y hy
        (by rw [hfy]; exact List.mem_cons_self _ _)

theorem dedupByKeyAux_exists_key {α κ : Type} [DecidableEq κ] (f : α → κ) :
    ∀ (l : List α) (seen : List κ) (x : α), x ∈ l →
      f x ∈ seen ∨ ∃ y ∈ dedupByKeyAux f seen l, f y = f x := by
  intro l
  induction l with
  | nil => intro seen x hx; simp at hx
  | cons z zs ih =>
    intro seen x hx
    by_cases h : f z ∈ seen
    · simp only [dedupByKeyAux, if_pos h]
      rcases List.mem_cons.mp hx with rfl | hx
      · exact Or.inl h
      · exact ih seen x hx
    · simp only [dedupByKeyAux, if_neg h]
      rcases List.mem_cons.mp hx with rfl | hx
      · exact Or.inr ⟨x, List.mem_cons_self _ _, rfl⟩
      · rcases ih (f z :: seen) x hx with hseen | ⟨y, hy, hfy⟩
        · rcases List.mem_cons.mp hseen with heq | hseen
          · exact Or.inr ⟨z, List.mem_cons_self _ _, heq.symm⟩
          · exact Or.inl hseen
        · exact Or.inr ⟨y, List.mem_cons_of_mem _ hy, hfy⟩

theorem dedupByKeyAux_find? {α κ : Type} [DecidableEq κ] (f : α → κ) :
    ∀ (l : List α) (seen : List κ) (y : α), y ∈ dedupByKeyAux f seen l →
      l.find? (fun z => decide (f z = f y)) = some y := by
  intro l
  induction l with
  | nil => intro seen y hy; simp [dedupByKeyAux] at hy
  | cons x xs ih =>
    intro seen y hy
    by_cases h : f x ∈ seen
    · simp only [dedupByKeyAux, if_pos h] at hy
      have hne : f x ≠ f y := by
        intro he
        exact dedupByKeyAux_key_not_seen f xs seen y hy (he ▸ h)
      rw [List.find?_cons_of_neg _ (by simpa using hne), ih seen y hy]
    · simp only [dedupByKeyAux, if_neg h] at hy
      rcases List.mem_cons.mp hy with rfl | hy
      · exact List.find?_cons_of_pos _ (by simp)
      · have hny : f y ∉ f x :: seen := dedupByKeyAux_key_not_seen f xs _ y hy
        have hne : f x ≠ f y := fun he => hny (by rw [← he]; exact List.mem_cons_self _ _)
        rw [List.find?_cons_of_neg _ (by simpa using hne), ih (f x :: seen) y hy]

theorem dedupByKey_sublist {α κ : Type} [DecidableEq κ] (f : α → κ) (l : List α) :
    (dedupByKey f l).Sublist l :=
  dedupByKeyAux_sublist f l []

theorem dedupByKey_keys_nodup {α κ : Type} [DecidableEq κ] (f : α → κ) (l : List α) :
    ((dedupByKey f l).map f).Nodup :=
  dedupByKeyAux_keys_nodup f l []

theorem dedupByKey_exists_key {α κ : Type} [DecidableEq κ] (f : α → κ) (l : List α)
    (x : α) (hx : x ∈ l) : ∃ y ∈ dedupByKey f l, f y = f x := by
  rcases dedupByKeyAux_exists_key f l [] x hx with h | h
  · simp at h
  · exact h

theorem dedupByKey_find? {α κ : Type} [DecidableEq κ] (f : α → κ) (l : List α)
    (y : α) (hy : y ∈ dedupByKey f l) :
    l.find? (fun z => decide (f z = f y)) = some y :=
  dedupByKeyAux_find? f l [] y hy

theorem dedupByKey_id_mem {α : Type} [DecidableEq α] (l : List α) (y : α) :
    y ∈ dedupByKey id l ↔ y ∈ l := by
  constructor
  · intro h
    exact (dedupByKey_sublist id l).subset h
  · intro h
    rcases dedupByKey_exists_key id l y h with ⟨z, hz, he⟩
    simpa [show z = y from he] using hz

theorem dedupByKey_id_nodup {α : Type} [DecidableEq α] (l : List α) :
    (dedupByKey id l).Nodup := by
  simpa using dedupByKey_keys_nodup id l

/-! Lemmas about the ASCII case maps, needed for the capitalization
contract of the reference-peak filename. -/

theorem char_toNat_inj {a b : Char} (h : a.toNat = b.toNat) : a = b := by
  apply Char.eq_of_val_eq
  apply UInt32.eq_of_toBitVec_eq
  exact BitVec.eq_of_toNat_eq h

theorem toNat_ofNat_valid {n : Nat} (h : n < 55296) : (Char.ofNat n).toNat = n := by
  have hv : Nat.isValidChar n := Or.inl h
  simp [Char.ofNat, hv, Char.ofNatAux, Char.toNat, UInt32.toNat, BitVec.toNat_ofNatLt]

theorem upperChar_lowerChar (c : Char) : upperChar (lowerChar c) = upperChar c := by
  by_cases h : 65 ≤ c.toNat ∧ c.toNat ≤ 90
  · have hval : (Char.ofNat (c.toNat + 32)).toNat = c.toNat + 32 :=
      toNat_ofNat_valid (by omega)
    simp only [lowerChar, if_pos h, upperChar, hval]
    rw [if_pos (by omega), if_neg (by omega)]
    have he : c.toNat + 32 - 32 = c.toNat := by omega
    rw [he, Char.ofNat_toNat]
  · simp [lowerChar, if_neg h]

theorem upperChar_congr {a b : Char} (h : lowerChar a = lowerChar b) :
    upperChar a = upperChar b := by
  rw [← upperChar_lowerChar a, ← upperChar_lowerChar b, h]

theorem pyCapitalize_congr {s t : String} (h : pyLower s = pyLower t) :
    pyCapitalize s = pyCapitalize t := by
  have hd : s.data.map lowerChar = t.data.map lowerChar := congrArg String.data h
  cases hs : s.data with
  | nil =>
    cases ht : t.data with
    | nil => simp [pyCapitalize, hs, ht]
    | cons d ds => rw [hs, ht] at hd; simp at hd
  | cons c cs =>
    cases ht : t.data with
    | nil => rw [hs, ht] at hd; simp at hd
    | cons d ds =>
      rw [hs, ht] at hd
      simp only [List.map_cons, List.cons.injEq] at hd
      simp [pyCapitalize, hs, ht, upperChar_congr hd.1, hd.2]

/-! Lemmas for the Interval Join Engine. -/

theorem filter_flatMap_comm {α β : Type} (l : List α) (g : α → List β) (p : β → Bool) :
    (l.flatMap g).filter p = l.flatMap fun a => (g a).filter p := by
  induction l with
  | nil => simp
  | cons x xs ih => simp [List.flatMap_cons, List.filter_append, ih]

theorem map_flatMap_comm {α β γ : Type} (l : List α) (g : α → List β) (f : β → γ) :
    (l.flatMap g).map f = l.flatMap fun a => (g a).map f := by
  induction l with
  | nil => simp
  | cons x xs ih => simp [List.flatMap_cons, List.map_append, ih]

/-- For one reference row, merging on chromosome, filtering by containment
of the reference start, and projecting is the same as filtering the motif
rows by the conjunction the specification states and projecting. -/
theorem perRow_eq (r : ChexRow) (mt : List MotifRow) (n : Nat) :
    (((mt.filter fun m => m.chrom == r.chrom).map fun m => (r, m)).filter
        (fun rm => decide (rm.1.start ≥ rm.2.start) &&
          decide (rm.1.start ≤ rm.2.«end»))).map (projectJoined n) =
      (mt.filter fun m =>
          decide (r.chrom = m.chrom) && decide (m.start ≤ r.start) &&
            decide (r.start ≤ m.«end»)).map
        fun m => ⟨r.chrom, r.start, r.«end», r.score, m.strand, n⟩ := by
  induction mt with
  | nil => simp
  | cons m ms ih =>
    by_cases h1 : m.chrom = r.chrom
    · by_cases h2 : m.start ≤ r.start
      · by_cases h3 : r.start ≤ m.«end»
        · simp [List.filter_cons, h1, h2, h3, ge_iff_le, projectJoined, ih]
        · simp [List.filter_cons, h1, h2, h3, ge_iff_le, projectJoined, ih]
      · simp [List.filter_cons, h1, h2, ge_iff_le, ih]
    · have h1s : r.chrom ≠ m.chrom := fun he => h1 he.symm
      simp [List.filter_cons, beq_iff_eq, h1, h1s, ih]

/-- The per-motif block of `merge_motif_with_chexmix` equals the per-motif
block of the specification join. -/
theorem perMotif_eq (chexmix_df : List ChexRow) (mt : List MotifRow) (n : Nat) :
    ((mergeOnChrom chexmix_df mt).filter fun rm =>
        decide (rm.1.start ≥ rm.2.start) &&
          decide (rm.1.start ≤ rm.2.«end»)).map (projectJoined n) =
      chexmix_df.flatMap fun r =>
        (mt.filter fun m =>
            decide (r.chrom = m.chrom) && decide (m.start ≤ r.start) &&
              decide (r.start ≤ m.«end»)).map
          fun m => ⟨r.chrom, r.start, r.«end», r.score, m.strand, n⟩ := by
  unfold mergeOnChrom
  rw [filter_flatMap_comm, map_flatMap_comm]
  exact congrArg _ (funext fun r => perRow_eq r mt n)

theorem mergeOnChrom_nil_right (chexmix_df : List ChexRow) :
    mergeOnChrom chexmix_df [] = [] := by
  induction chexmix_df with
  | nil => rfl
  | cons r rs ih => simp [mergeOnChrom, List.flatMap_cons] at ih ⊢

theorem flatten_map_const_nil {α β : Type} (l : List α) :
    (l.map fun _ => ([] : List β)).flatten = [] := by
  induction l with
  | nil => rfl
  | cons x xs ih => simp [ih]

/-- C1: `merge_motif_with_chexmix` returns exactly the exact-duplicate-free
concatenation, over motif indices in order, of the rows obtained by pairing
each reference row R with each motif row M such that R.chrom = M.chrom and
M.start ≤ R.start ≤ M.end, each surviving pair projected to the reference
chromosome, start, end and score plus the motif strand and tagged with the
motif index (this is `joinSpec`, worded from the specification); moreover a
single pair of equal chromosome contributes a row iff the containment holds,
and an empty motif table or an empty reference table contributes zero rows
without error. -/
theorem merge_motif_with_chexmix_ok :
    (∀ (motif_dfs : List (Nat × List MotifRow)) (chexmix_df : List ChexRow),
      merge_motif_with_chexmix motif_dfs chexmix_df = joinSpec chexmix_df motif_dfs)
    ∧ (∀ (n : Nat) (m : MotifRow) (r : ChexRow), r.chrom = m.chrom →
        merge_motif_with_chexmix [(n, [m])] [r] =
          if m.start ≤ r.start ∧ r.start ≤ m.«end» then
            [⟨r.chrom, r.start, r.«end», r.score, m.strand, n⟩] else [])
    ∧ (∀ (n : Nat) (chexmix_df : List ChexRow),
        merge_motif_with_chexmix [(n, [])] chexmix_df = [])
    ∧ (∀ (motif_dfs : List (Nat × List MotifRow)),
        merge_motif_with_chexmix motif_dfs [] = []) := by
  refine ⟨?_, ?_, ?_, ?_⟩
  · intro motif_dfs chexmix_df
    unfold merge_motif_with_chexmix joinSpec
    exact congrArg (dedupByKey id) (congrArg List.flatten
      (congrArg (fun F => List.map F motif_dfs)
        (funext fun p => perMotif_eq chexmix_df p.2 p.1)))
  · intro n m r h
    by_cases h2 : m.start ≤ r.start
    · by_cases h3 : r.start ≤ m.«end»
      · simp [merge_motif_with_chexmix, mergeOnChrom, h, h2, h3, ge_iff_le,
          projectJoined, dedupByKey, dedupByKeyAux]
      · simp [merge_motif_with_chexmix, mergeOnChrom, h, h2, h3, ge_iff_le,
          projectJoined, dedupByKey, dedupByKeyAux]
    · simp [merge_motif_with_chexmix, mergeOnChrom, h, h2, ge_iff_le,
        projectJoined, dedupByKey, dedupByKeyAux]
  · intro n chexmix_df
    simp [merge_motif_with_chexmix, mergeOnChrom_nil_right, dedupByKey, dedupByKeyAux]
  · intro motif_dfs
    have hb : ∀ p : Nat × List MotifRow,
        ((mergeOnChrom [] p.2).filter fun rm =>
            decide (rm.1.start ≥ rm.2.start) &&
              decide (rm.1.start ≤ rm.2.«end»)).map (projectJoined p.1) = [] := by
      intro p; rfl
    unfold merge_motif_with_chexmix
    rw [List.map_congr_left fun p _ => hb p, flatten_map_const_nil]
    rfl

/-- C1 witness: the theorem applied at one concrete reference row and one
concrete containing motif row. -/
theorem merge_motif_with_chexmix_ok_witness :
    merge_motif_with_chexmix [(1, [motifHit])] [chexRow1] = [joinedRow1] := by
  have h := merge_motif_with_chexmix_ok.2.1 1 motifHit chexRow1 rfl
  rw [h]
  decide

/-- C2: the final aggregation concatenates the per-replicate tables in
replicate order and keeps exactly the first row of the concatenation for
each (chrom, start, end, score) key: the result is a sublist of the
concatenation, its keys are pairwise distinct, every kept row is the first
row of the concatenation carrying its key (so of two rows equal on the key
but differing in sample or replicate only the first-encountered survives),
and every input key is still represented. -/
theorem aggregateFinal_ok (tables : List (List AggRow)) :
    (aggregateFinal tables).Sublist tables.flatten
    ∧ ((aggregateFinal tables).map aggKey).Nodup
    ∧ (∀ y ∈ aggregateFinal tables,
        tables.flatten.find? (fun z => decide (aggKey z = aggKey y)) = some y)
    ∧ (∀ x ∈ tables.flatten, ∃ y ∈ aggregateFinal tables, aggKey y = aggKey x) :=
  ⟨dedupByKey_sublist _ _, dedupByKey_keys_nodup _ _,
    fun y hy => dedupByKey_find? _ _ y hy,
    fun x hx => dedupByKey_exists_key _ _ x hx⟩

/-- C2 witness: the theorem applied at two replicate tables whose rows agree
on the dedup key but differ in sample and replicate; the first-encountered
row is the one the concatenation retains. -/
theorem aggregateFinal_ok_witness :
    [[aggRowS1], [aggRowS2]].flatten.find?
      (fun z => decide (aggKey z = aggKey aggRowS1)) = some aggRowS1 :=
  (aggregateFinal_ok [[aggRowS1], [aggRowS2]]).2.2.1 aggRowS1 (by decide)

/-- C9 counterexample: under a symmetric case-insensitive whitespace-trimmed
comparison (`claimedReplicates`) the request "abf1 " matches the metadata
row named "abf1", but `get_replicates_for_tf` lowercases without trimming
the requested name, so the source returns no replicates for it. -/
theorem get_replicates_for_tf_counterexample :
    get_replicates_for_tf "abf1 " metaLower = []
    ∧ claimedReplicates "abf1 " metaLower = [("R1", "S1")] :=
  ⟨rfl, rfl⟩

/-- C9 (amended): `get_replicates_for_tf` returns the distinct
(Replicate, Sample ID) pairs, first occurrence kept, of the rows whose
TF-name column — whitespace-trimmed and lowercased — equals the lowercased
but untrimmed requested name, and returns an empty result (not an error)
exactly when no row matches. -/
theorem get_replicates_for_tf_ok (tf_name : String) (metadata : List MetaRow) :
    (get_replicates_for_tf tf_name metadata).Nodup
    ∧ (∀ p, p ∈ get_replicates_for_tf tf_name metadata ↔
        ∃ r ∈ metadata, pyLower (pyStrip r.tfName) = pyLower tf_name ∧
          p = (r.replicate, r.sampleId))
    ∧ (get_replicates_for_tf tf_name metadata).Sublist
        ((metadata.filter fun r =>
            pyLower (pyStrip r.tfName) == pyLower tf_name).map
          fun r => (r.replicate, r.sampleId))
    ∧ (get_replicates_for_tf tf_name metadata = [] ↔
        ∀ r ∈ metadata, pyLower (pyStrip r.tfName) ≠ pyLower tf_name) := by
  have hmem : ∀ p, p ∈ get_replicates_for_tf tf_name metadata ↔
      ∃ r ∈ metadata, pyLower (pyStrip r.tfName) = pyLower tf_name ∧
        p = (r.replicate, r.sampleId) := by
    intro p
    unfold get_replicates_for_tf
    rw [dedupByKey_id_mem]
    simp only [List.mem_map, List.mem_filter, beq_iff_eq]
    constructor
    · rintro ⟨r, ⟨hr, hc⟩, rfl⟩
      exact ⟨r, hr, hc, rfl⟩
    · rintro ⟨r, hr, hc, rfl⟩
      exact ⟨r, ⟨hr, hc⟩, rfl⟩
  refine ⟨dedupByKey_id_nodup _, hmem, dedupByKey_sublist _ _, ?_⟩
  rw [List.eq_nil_iff_forall_not_mem]
  constructor
  · intro h r hr hc
    exact h (r.replicate, r.sampleId) ((hmem _).mpr ⟨r, hr, hc, rfl⟩)
  · intro h p hp
    rcases (hmem p).mp hp with ⟨r, hr, hc, rfl⟩
    exact h r hr hc

/-- C9 witness: the amended theorem applied at a concrete request and
matching metadata. -/
theorem get_replicates_for_tf_ok_witness :
    (get_replicates_for_tf "abf1" metaLower).Nodup :=
  (get_replicates_for_tf_ok "abf1" metaLower).1

/-- C10: the reference-peak filename key is the TF name with its first
character uppercased and the remaining characters lowercased (Python
`str.capitalize`), so any two TF names equal up to case map to the same
remote URL, the same cache path, and the same fetch behaviour; in
particular "ABF1" is keyed as "Abf1_CX.bed", not "ABF1_CX.bed". -/
theorem download_tf_chexmix_bed_ok :
    (∀ t1 t2 : String, pyLower t1 = pyLower t2 →
        chexmix_url t1 = chexmix_url t2
        ∧ (∀ dest_dir, chexmix_cache_path t1 dest_dir = chexmix_cache_path t2 dest_dir)
        ∧ (∀ net dest_dir fs, download_tf_chexmix_bed net t1 dest_dir fs =
            download_tf_chexmix_bed net t2 dest_dir fs))
    ∧ (∀ (c : Char) (cs : List Char),
        download_tf_filename (String.mk (c :: cs)) =
          String.mk (upperChar c :: cs.map lowerChar) ++ "_CX.bed")
    ∧ download_tf_filename "ABF1" = "Abf1_CX.bed"
    ∧ download_tf_filename "ABF1" ≠ "ABF1_CX.bed" := by
  refine ⟨?_, ?_, by decide, by decide⟩
  · intro t1 t2 h
    have hf : download_tf_filename t1 = download_tf_filename t2 := by
      unfold download_tf_filename
      rw [pyCapitalize_congr h]
    have hu : chexmix_url t1 = chexmix_url t2 := by
      unfold chexmix_url; rw [hf]
    have hc : ∀ dest_dir, chexmix_cache_path t1 dest_dir = chexmix_cache_path t2 dest_dir := by
      intro dest_dir; unfold chexmix_cache_path; rw [hf]
    refine ⟨hu, hc, ?_⟩
    intro net dest_dir fs
    unfold download_tf_chexmix_bed
    rw [hu, hc]
  · intro c cs
    rfl

/-- C10 witness: the theorem applied at the case-insensitively equal TF
names "ABF1" and "abf1". -/
theorem download_tf_chexmix_bed_ok_witness :
    chexmix_url "ABF1" = chexmix_url "abf1" :=
  (download_tf_chexmix_bed_ok.1 "ABF1" "abf1" (by decide)).1

/-! Lemmas for the motif loader. -/

/-- The scanning loop loads a contiguous block of present indices starting
at `start`, and stops either because fuel ran out or at a missing index. -/
theorem loadMotifsAux_spec (present : List Nat) (tbl : Nat → List MotifRow) :
    ∀ (fuel start : Nat), ∃ n,
      loadMotifsAux present tbl fuel start =
        (List.range' start n).map (fun k => (k, tbl k))
      ∧ (∀ k ∈ List.range' start n, present.contains k = true)
      ∧ (n = fuel ∨ present.contains (start + n) = false) := by
  intro fuel
  induction fuel with
  | zero =>
    intro start
    exact ⟨0, by simp [loadMotifsAux], by simp, Or.inl rfl⟩
  | succ fuel ih =>
    intro start
    by_cases h : present.contains start = true
    · rcases ih (start + 1) with ⟨n, h1, h2, h3⟩
      refine ⟨n + 1, ?_, ?_, ?_⟩
      · simp only [loadMotifsAux, h, if_true, h1, List.range'_succ, List.map_cons]
      · intro k hk
        rw [List.range'_succ] at hk
        rcases List.mem_cons.mp hk with rfl | hk
        · exact h
        · exact h2 k hk
      · rcases h3 with h3 | h3
        · exact Or.inl (by rw [h3])
        · refine Or.inr ?_
          have he : start + (n + 1) = start + 1 + n := by omega
          rw [he]
          exact h3
    · have h' : start ∉ present := by simpa using h
      refine ⟨0, ?_, by simp, Or.inr ?_⟩
      · simp [loadMotifsAux, h']
      · simpa using h

/-- C5: `load_all_motif_bed_files` scans indices 1, 2, 3, … and stops at the
first index whose expected motif file is absent, so the returned mapping is
exactly the contiguous block of indices 1..n for the first missing index
n + 1; in particular with files present for motifs 1 and 3 but not 2 it
returns only motif 1, and with motif 1 absent it returns an empty mapping
rather than an error. -/
theorem load_all_motif_bed_files_ok :
    (∀ (present : List Nat) (tbl : Nat → List MotifRow), ∃ n,
      load_all_motif_bed_files present tbl =
        (List.range' 1 n).map (fun k => (k, tbl k))
      ∧ (∀ k ∈ List.range' 1 n, present.contains k = true)
      ∧ present.contains (n + 1) = false)
    ∧ (∀ tbl, load_all_motif_bed_files [1, 3] tbl = [(1, tbl 1)])
    ∧ (∀ tbl, load_all_motif_bed_files [2, 3] tbl = []) := by
  refine ⟨?_, fun tbl => rfl, fun tbl => rfl⟩
  intro present tbl
  rcases loadMotifsAux_spec present tbl (present.length + 1) 1 with ⟨n, h1, h2, h3⟩
  rcases h3 with h3 | h3
  · exfalso
    have hsub : List.range' 1 n ⊆ present := by
      intro k hk
      have := h2 k hk
      simpa using this
    have hnodup : (List.range' 1 n).Nodup := List.nodup_range' 1 n 1 (by omega)
    have hlen : (List.range' 1 n).length ≤ present.length :=
      (hnodup.subperm hsub).length_le
    rw [List.length_range'] at hlen
    omega
  · refine ⟨n, h1, h2, ?_⟩
    have he : n + 1 = 1 + n := by omega
    rw [he]
    exact h3

/-- C5 witness: the characterization applied at the gap fixture, where the
block is exactly motif 1. -/
theorem load_all_motif_bed_files_ok_witness :
    ∃ n, load_all_motif_bed_files [1, 3] (fun _ => [motifHit]) =
        (List.range' 1 n).map (fun k => (k, [motifHit]))
      ∧ (∀ k ∈ List.range' 1 n, ([1, 3] : List Nat).contains k = true)
      ∧ ([1, 3] : List Nat).contains (n + 1) = false :=
  load_all_motif_bed_files_ok.1 [1, 3] (fun _ => [motifHit])

/-- C6: for every filesystem state, a successful run of
`download_and_extract_zip` downloads exactly when the archive file was
absent and extracts exactly when the extraction directory was absent (so at
most one of each), returns the expected directory path, and a second call on
the resulting filesystem performs no download and no extraction and returns
the same path — so two calls in sequence perform at most one download and
at most one extraction in total. -/
theorem download_and_extract_zip_ok
    (net : String → Except Err Unit) (sample_id dest_folder : String)
    (fs fs1 : FS) (ev1 : List FetchEv) (p1 : String)
    (h : download_and_extract_zip net sample_id dest_folder fs = .ok (fs1, ev1, p1)) :
    download_and_extract_zip net sample_id dest_folder fs1 = .ok (fs1, [], p1)
    ∧ p1 = pathJoin dest_folder sample_id
    ∧ countDownloads ev1 =
        (if fs.files.contains (pathJoin dest_folder (sample_id ++ "_YEP.zip")) then 0 else 1)
    ∧ countExtracts ev1 =
        (if fs.dirs.contains (pathJoin dest_folder sample_id) then 0 else 1)
    ∧ countDownloads ev1 ≤ 1 ∧ countExtracts ev1 ≤ 1 := by
  by_cases hf : pathJoin dest_folder (sample_id ++ "_YEP.zip") ∈ fs.files
  · by_cases hd : pathJoin dest_folder sample_id ∈ fs.dirs
    · simp [download_and_extract_zip, hf, hd] at h
      obtain ⟨rfl, rfl, rfl⟩ := h
      simp [download_and_extract_zip, hf, hd, countDownloads, countExtracts]
    · simp [download_and_extract_zip, hf, hd] at h
      obtain ⟨rfl, rfl, rfl⟩ := h
      refine ⟨?_, rfl, ?_, ?_, ?_, ?_⟩ <;>
        simp [download_and_extract_zip, hf, hd, countDownloads, countExtracts]
  · cases hnet : net (base_url ++ sample_id ++ "_YEP.zip") with
    | error e => simp [download_and_extract_zip, hf, hnet] at h
    | ok u =>
      by_cases hd : pathJoin dest_folder sample_id ∈ fs.dirs
      · simp [download_and_extract_zip, hf, hnet, hd] at h
        obtain ⟨rfl, rfl, rfl⟩ := h
        refine ⟨?_, rfl, ?_, ?_, ?_, ?_⟩ <;>
          simp [download_and_extract_zip, hf, hd, countDownloads, countExtracts]
      · simp [download_and_extract_zip, hf, hnet, hd] at h
        obtain ⟨rfl, rfl, rfl⟩ := h
        refine ⟨?_, rfl, ?_, ?_, ?_, ?_⟩ <;>
          simp [download_and_extract_zip, hf, hd, countDownloads, countExtracts]

/-- C6 witness: the theorem applied to a fetch of sample S1 on an empty
filesystem: the second call is a no-op returning the same path. -/
theorem download_and_extract_zip_ok_witness :
    download_and_extract_zip netOk "S1" "/data" fsS1 = .ok (fsS1, [], "/data/S1") :=
  (download_and_extract_zip_ok netOk "S1" "/data" fsEmpty fsS1 evS1 "/data/S1" rfl).1

/-- C8: a reference peak file whose parsed table does not have exactly 6
columns makes `load_tf_chexmix_bed` fail with `FormatError`, and `main`
then fails with that error for every motif fetcher and metadata — before
any join is attempted, so no joined or aggregated rows are produced for the
TF. -/
theorem load_tf_chexmix_bed_format_error (t : ParsedBed) (h : t.ncols ≠ 6) :
    load_tf_chexmix_bed (.ok t) = .error Err.format
    ∧ ∀ (tf_name : String) (metadata : List MetaRow)
        (fetchMotifs : String → Except Err (List (Nat × List MotifRow))),
        main tf_name metadata (.ok t) fetchMotifs = .error Err.format := by
  have hl : load_tf_chexmix_bed (.ok t) = .error Err.format := by
    simp [load_tf_chexmix_bed, h]
  refine ⟨hl, ?_⟩
  intro tf_name metadata fetchMotifs
  simp [main, hl]

/-- C8 witness: the theorem applied to a 5-column reference file. -/
theorem load_tf_chexmix_bed_format_error_witness :
    load_tf_chexmix_bed (.ok ⟨5, []⟩) = .error Err.format :=
  (load_tf_chexmix_bed_format_error ⟨5, []⟩ (by decide)).1

/-- C4 counterexample: a run whose only replicate has a motif file but whose
join yields zero rows still writes an output file with zero data rows,
instead of reporting no results and writing nothing. -/
theorem main_empty_join_writes_file :
    main "Abf1" metaOne (.ok chexOk) envC4 =
      .ok (some ⟨"./output/abf1_rossi_peak_w_strand.bed", []⟩) := rfl

/-- C4 (amended): `main` reports no results and writes no output file
exactly when the replicate loop produced no per-replicate tables, which
happens exactly when every replicate was skipped for having no motif files;
a replicate whose motif files produce zero joined rows still contributes an
empty table, so an output file (with zero data rows) is then written. -/
theorem main_no_results_iff (tf_name : String) (metadata : List MetaRow)
    (chexSrc : Except Err ParsedBed)
    (fetchMotifs : String → Except Err (List (Nat × List MotifRow))) :
    (main tf_name metadata chexSrc fetchMotifs = .ok none ↔
      ∃ chexmix_df, load_tf_chexmix_bed chexSrc = .ok chexmix_df ∧
        mainLoop fetchMotifs chexmix_df (get_replicates_for_tf tf_name metadata) = .ok [])
    ∧ ∀ (chexmix_df : List ChexRow) (reps : List (String × String)),
        mainLoop fetchMotifs chexmix_df reps = .ok [] ↔
          ∀ rep ∈ reps, processReplicate fetchMotifs chexmix_df rep = .ok none := by
  constructor
  · cases hc : load_tf_chexmix_bed chexSrc with
    | error e => simp [main, hc]
    | ok chexmix_df =>
      cases hm : mainLoop fetchMotifs chexmix_df (get_replicates_for_tf tf_name metadata) with
      | error e => simp [main, hc, hm]
      | ok ts =>
        by_cases hts : ts = []
        · simp [main, hc, hm, hts]
        · simp [main, hc, hm, hts, List.isEmpty_iff]
  · intro chexmix_df reps
    induction reps with
    | nil => simp [mainLoop]
    | cons rep rest ih =>
      cases hp : processReplicate fetchMotifs chexmix_df rep with
      | error e => simp [mainLoop, hp, List.forall_mem_cons]
      | ok o =>
        cases o with
        | none => simp [mainLoop, hp, ih, List.forall_mem_cons]
        | some t =>
          cases hm : mainLoop fetchMotifs chexmix_df rest with
          | error e => simp [mainLoop, hp, hm, List.forall_mem_cons]
          | ok tail => simp [mainLoop, hp, hm, List.forall_mem_cons]

/-- C4 witness: the amended characterization applied at a run whose only
replicate has no motif files: no output is produced. -/
theorem main_no_results_iff_witness :
    main "Abf1" metaOne (.ok chexOk) envNone = .ok none :=
  ((main_no_results_iff "Abf1" metaOne (.ok chexOk) envNone).1).mpr
    ⟨chexOk.rows, rfl, rfl⟩

/-- C3 counterexample: with two replicates, where sample S1 fails with a
network error and sample S2 would contribute a row, the per-TF run aborts
with the error and the S2 contribution is lost; the same run without the
failing sample succeeds and writes the S2 row. A per-sample failure is
therefore not logged-and-skipped. -/
theorem main_sample_failure_aborts :
    main "Abf1" metaTwo (.ok chexOk) envC3 = .error Err.network
    ∧ main "Abf1" metaS2 (.ok chexOk) envC3 =
        .ok (some ⟨"./output/abf1_rossi_peak_w_strand.bed", [aggRowS2]⟩) :=
  ⟨rfl, rfl⟩

/-- C3 (amended): a NetworkError or FormatError affecting one sample is not
caught inside the replicate loop: if the replicates before it succeeded, the
whole per-TF loop aborts with that error regardless of the remaining
replicates, whose contributions are dropped. Error isolation exists only at
the per-TF boundary of the all-TFs driver. -/
theorem mainLoop_error_propagates
    (fetchMotifs : String → Except Err (List (Nat × List MotifRow)))
    (chexmix_df : List ChexRow) (pre : List (String × String))
    (rep : String × String) (rest : List (String × String))
    (ts : List (List AggRow)) (e : Err)
    (hpre : mainLoop fetchMotifs chexmix_df pre = .ok ts)
    (hrep : processReplicate fetchMotifs chexmix_df rep = .error e) :
    mainLoop fetchMotifs chexmix_df (pre ++ rep :: rest) = .error e := by
  induction pre generalizing ts with
  | nil => simp [mainLoop, hrep]
  | cons p ps ih =>
    cases hp : processReplicate fetchMotifs chexmix_df p with
    | error e2 => simp [mainLoop, hp] at hpre
    | ok o =>
      cases o with
      | none =>
        simp only [mainLoop, hp, List.cons_append] at hpre ⊢
        exact ih ts hpre
      | some t =>
        cases hm : mainLoop fetchMotifs chexmix_df ps with
        | error e2 => simp [mainLoop, hp, hm] at hpre
        | ok tail =>
          have hih := ih tail hm
          simp [mainLoop, List.cons_append, hp, hih]

/-- C3 witness for the amended claim: the failing first replicate aborts the
loop even though the second replicate would succeed. -/
theorem mainLoop_error_propagates_witness :
    mainLoop envC3 chexOk.rows ([] ++ ("R1", "S1") :: [("R2", "S2")]) =
      .error Err.network :=
  mainLoop_error_propagates envC3 chexOk.rows [] ("R1", "S1") [("R2", "S2")]
    [] Err.network rfl rfl

theorem runAllAux_eq_map (runOne : String → Except Err (Option OutputFile))
    (tfs : List String) :
    runAllAux runOne tfs = tfs.map (fun tf => (tf, toOutcome (runOne tf))) := by
  induction tfs with
  | nil => rfl
  | cons tf rest ih => simp [runAllAux, ih]

/-- C7: the all-TFs driver processes every TF enumerated from the metadata:
its outcome list is exactly the per-TF outcomes in enumeration order, with
any error caught at the TF boundary and recorded as a failed outcome; the
processed names are exactly the enumerated names even when some runs error;
and a TF whose run errors leaves the processing of every other TF
unchanged. -/
theorem run_all_tfs_ok (metadata : List MetaRow)
    (chexSrc : String → Except Err ParsedBed)
    (fetchMotifs : String → Except Err (List (Nat × List MotifRow))) :
    run_all_tfs metadata chexSrc fetchMotifs =
      (unique_tfs metadata).map
        (fun tf => (tf, toOutcome (main tf metadata (chexSrc tf) fetchMotifs)))
    ∧ (run_all_tfs metadata chexSrc fetchMotifs).map Prod.fst = unique_tfs metadata
    ∧ ∀ (runOne : String → Except Err (Option OutputFile)) (pre : List String)
        (tf : String) (post : List String) (e : Err),
        runOne tf = .error e →
        runAllAux runOne (pre ++ tf :: post) =
          runAllAux runOne pre ++ (tf, Outcome.failed e) :: runAllAux runOne post := by
  refine ⟨runAllAux_eq_map _ _, ?_, ?_⟩
  · rw [run_all_tfs, runAllAux_eq_map, List.map_map]
    show List.map (fun tf => tf) (unique_tfs metadata) = unique_tfs metadata
    exact List.map_id' _
  · intro runOne pre tf post e he
    simp [runAllAux_eq_map, toOutcome, he]

/-- C7 witness: the insertion equation applied at a concrete failing TF in
the middle of two others. -/
theorem run_all_tfs_ok_witness :
    runAllAux (fun _ => Except.error Err.network) (["Abf1"] ++ "Cbf1" :: ["Reb1"]) =
      runAllAux (fun _ => Except.error Err.network) ["Abf1"] ++
        ("Cbf1", Outcome.failed Err.network) ::
          runAllAux (fun _ => Except.error Err.network) ["Reb1"] :=
  (run_all_tfs_ok [] (fun _ => .ok chexOk) envNone).2.2 _ ["Abf1"] "Cbf1" ["Reb1"]
    Err.network rfl

end RossiStrand
